import Mathlib

/-
Verification development for the ghostty_vt terminal-emulation engine
exposed by src/crates/ghostty_vt_sys/include/ghostty_vt.h.
The header declares the FFI boundary; the engine itself is modelled from
the specification (spec.md), since its implementation is not part of the
available sources. All byte values are modelled as Nat, with explicit
reduction modulo 256 or 65536 where the C types (uint8_t, uint16_t)
truncate.
-/

/-- RGB color triple, one byte per channel. -/
structure RGB where
  r : Nat
  g : Nat
  b : Nat
deriving DecidableEq, Repr

/-- Modelled from the spec: a cell color is either an explicit RGB value or
the marker that resolution goes through the terminal default colors at read
time (spec section 3, Cell invariant). -/
inductive Color where
  | defaultColor
  | rgb (c : RGB)
deriving DecidableEq, Repr

/-- Modelled from the spec: the active text attribute set of the terminal
state machine — foreground and background color plus the seven
independently combinable style flags (spec sections 3 and 6). -/
structure Attrs where
  fg : Color
  bg : Color
  inverse : Bool
  bold : Bool
  italic : Bool
  underline : Bool
  faint : Bool
  invisible : Bool
  strikethrough : Bool
deriving DecidableEq, Repr

def Attrs.init : Attrs :=
  { fg := Color.defaultColor, bg := Color.defaultColor,
    inverse := false, bold := false, italic := false, underline := false,
    faint := false, invisible := false, strikethrough := false }

/-- Modelled from the spec: one grid position — codepoints, attributes and
an optional hyperlink reference by id (spec section 3, Cell). -/
structure Cell where
  codepoints : List Nat
  attrs : Attrs
  hyperlink : Option Nat
deriving DecidableEq, Repr

def Cell.blank : Cell := { codepoints := [], attrs := Attrs.init, hyperlink := none }

/-- The fixed 8-byte packed style record of the boundary, mirroring
ghostty_vt_cell_style_t in the header: fg RGB, bg RGB, flag byte,
reserved byte. -/
structure CellStyleRecord where
  fg_r : Nat
  fg_g : Nat
  fg_b : Nat
  bg_r : Nat
  bg_g : Nat
  bg_b : Nat
  flags : Nat
  reserved : Nat
deriving DecidableEq, Repr

/-- The flag byte of ghostty_vt_cell_style_t: bit 0 inverse (0x01),
bit 1 bold (0x02), bit 2 italic (0x04), bit 3 underline (0x08),
bit 4 faint (0x10), bit 5 invisible (0x20), bit 6 strikethrough (0x40),
per the comment in the header. -/
def encodeStyleFlags (inverse bold italic underline faint invisible strikethrough : Bool) : Nat :=
  (cond inverse 1 0) + (cond bold 2 0) + (cond italic 4 0) + (cond underline 8 0) +
  (cond faint 16 0) + (cond invisible 32 0) + (cond strikethrough 64 0)

/-- Serialization of the style record into its 8 bytes, in declaration
order of ghostty_vt_cell_style_t; each field is truncated to uint8_t. -/
def serializeCellStyle (s : CellStyleRecord) : List Nat :=
  [s.fg_r % 256, s.fg_g % 256, s.fg_b % 256,
   s.bg_r % 256, s.bg_g % 256, s.bg_b % 256,
   s.flags % 256, s.reserved % 256]

/-- Modelled from the spec: the parser is a deterministic finite-state
machine over states Ground, Escape, CsiEntry, OscString and friends, with
partial multi-byte UTF-8 sequences buffered in the state (spec section
4.1). -/
inductive ParserState where
  | ground
  | utf8Collect (acc : Nat) (remaining : Nat)
  | escape
  | csiEntry (params : List Nat) (cur : Nat) (valid : Bool)
  | oscString (acc : List Nat)
  | oscEsc (acc : List Nat)
deriving DecidableEq, Repr

/-- Modelled from the spec: the root Terminal aggregate — dimensions,
default colors, grid with scrollback, cursor, parser state, active
attributes, dirty-row set, viewport offset, accumulated scroll delta and
the hyperlink table (spec section 3). -/
structure Terminal where
  cols : Nat
  rows : Nat
  defaultFg : RGB
  defaultBg : RGB
  grid : List (List Cell)
  scrollback : List (List Cell)
  cursorCol : Nat
  cursorRow : Nat
  parser : ParserState
  attrs : Attrs
  dirty : List Nat
  viewportOffset : Nat
  scrollDelta : Int
  hyperlinks : List (Nat × List Nat)
  activeHyperlink : Option Nat
  nextHyperlinkId : Nat
deriving DecidableEq, Repr

def blankRow (cols : Nat) : List Cell := List.replicate cols Cell.blank

/-- Implementation-defined scrollback retention limit (spec section 3
leaves the exact value open; we fix 1000 rows, oldest-first eviction). -/
def scrollbackLimit : Nat := 1000

def Terminal.init (cols rows : Nat) : Terminal :=
  { cols := cols, rows := rows,
    defaultFg := { r := 255, g := 255, b := 255 },
    defaultBg := { r := 0, g := 0, b := 0 },
    grid := List.replicate rows (blankRow cols),
    scrollback := [], cursorCol := 0, cursorRow := 0,
    parser := ParserState.ground, attrs := Attrs.init,
    dirty := [], viewportOffset := 0, scrollDelta := 0,
    hyperlinks := [], activeHyperlink := none, nextHyperlinkId := 0 }

/-- Update the element at index n with f, identity when out of bounds. -/
def updateNth {α : Type} (l : List α) (n : Nat) (f : α → α) : List α :=
  match l, n with
  | [], _ => []
  | a :: l, 0 => f a :: l
  | a :: l, Nat.succ n => a :: updateNth l n f

/-- Mark a viewport row dirty (spec section 3, dirty-row bitmap). -/
def Terminal.markDirty (t : Terminal) (r : Nat) : Terminal :=
  { t with dirty := r :: t.dirty }

/-- Modelled from the spec: scrolling the grid contents up by one line —
the top active row moves into scrollback (bounded by the retention limit,
oldest rows discarded first) and a blank row enters at the bottom; all
viewport rows become dirty (spec sections 3 and 4.2). -/
def Terminal.scrollUp (t : Terminal) : Terminal :=
  match t.grid with
  | [] => t
  | top :: rest =>
    let sb := t.scrollback ++ [top]
    { t with grid := rest ++ [blankRow t.cols],
             scrollback := sb.drop (sb.length - scrollbackLimit),
             dirty := List.range t.rows }

/-- Line feed: move the cursor down one row, scrolling the grid when
already at the last row (spec section 4.2). -/
def Terminal.lineFeed (t : Terminal) : Terminal :=
  if t.cursorRow + 1 < t.rows then { t with cursorRow := t.cursorRow + 1 }
  else t.scrollUp

/-- Write a cell at the current cursor position. -/
def Terminal.putCell (t : Terminal) (cell : Cell) : Terminal :=
  { t with grid := updateNth t.grid t.cursorRow (fun row => updateNth row t.cursorCol (fun _ => cell)) }

/-- Modelled from the spec: printing a completed codepoint writes it at
the cursor cell with the current attribute set and active hyperlink
reference, marks the row dirty, advances the cursor, and wraps to the
next line (scrolling at the last row) when the line is full (spec
section 4.2). -/
def Terminal.printCp (t : Terminal) (cp : Nat) : Terminal :=
  let c : Cell := { codepoints := [cp], attrs := t.attrs, hyperlink := t.activeHyperlink }
  let t1 := (t.putCell c).markDirty t.cursorRow
  if t1.cursorCol + 1 < t1.cols then { t1 with cursorCol := t1.cursorCol + 1 }
  else Terminal.lineFeed { t1 with cursorCol := 0 }

/-- Modelled from the spec: SGR (CSI m) parameter interpretation —
reset, the seven flag attributes, direct-color 38;2 and 48;2 forms,
and 39 and 49 restoring the default-color marker; unrecognized
parameters are skipped (spec sections 4.1 and 7). -/
def applySgr (a : Attrs) : List Nat → Attrs
  | [] => a
  | 0 :: rest => applySgr Attrs.init rest
  | 1 :: rest => applySgr { a with bold := true } rest
  | 2 :: rest => applySgr { a with faint := true } rest
  | 3 :: rest => applySgr { a with italic := true } rest
  | 4 :: rest => applySgr { a with underline := true } rest
  | 7 :: rest => applySgr { a with inverse := true } rest
  | 8 :: rest => applySgr { a with invisible := true } rest
  | 9 :: rest => applySgr { a with strikethrough := true } rest
  | 38 :: 2 :: r :: g :: b :: rest =>
      applySgr { a with fg := Color.rgb { r := r % 256, g := g % 256, b := b % 256 } } rest
  | 39 :: rest => applySgr { a with fg := Color.defaultColor } rest
  | 48 :: 2 :: r :: g :: b :: rest =>
      applySgr { a with bg := Color.rgb { r := r % 256, g := g % 256, b := b % 256 } } rest
  | 49 :: rest => applySgr { a with bg := Color.defaultColor } rest
  | _ :: rest => applySgr a rest

/-- Numeric CSI parameter with a default for 0 or absent. -/
def getParam (params : List Nat) (i d : Nat) : Nat :=
  match params.get? i with
  | some 0 => d
  | some v => v
  | none => d

/-- Modelled from the spec: dispatch of a complete CSI sequence —
recognized finals (H cursor position, m SGR) mutate the terminal state;
unknown or invalid sequences are discarded without any effect, the
parser merely returning to ground (spec sections 4.1 and 7). -/
def Terminal.csiDispatch (t : Terminal) (params : List Nat) (finalByte : Nat) (valid : Bool) : Terminal :=
  let tg := { t with parser := ParserState.ground }
  if valid = false then tg
  else if finalByte = 0x48 then
    let r := getParam params 0 1
    let c := getParam params 1 1
    { tg with cursorRow := min (r - 1) (t.rows - 1), cursorCol := min (c - 1) (t.cols - 1) }
  else if finalByte = 0x6d then { tg with attrs := applySgr tg.attrs params }
  else tg

/-- Split an OSC payload at its first semicolon byte. -/
def splitAtSemi : List Nat → Option (List Nat × List Nat)
  | [] => none
  | 0x3b :: rest => some ([], rest)
  | b :: rest =>
    match splitAtSemi rest with
    | none => none
    | some (p, u) => some (b :: p, u)

/-- Modelled from the spec: dispatch of a complete OSC string — an OSC 8
sequence with a nonempty URI allocates a hyperlink-table entry and makes
it the active hyperlink for subsequently printed cells; an empty URI
closes the active span; other OSC strings are ignored (spec sections 3,
4.2 and 4.4). -/
def Terminal.oscDispatch (t : Terminal) (acc : List Nat) : Terminal :=
  let tg := { t with parser := ParserState.ground }
  match acc with
  | 0x38 :: 0x3b :: rest =>
    match splitAtSemi rest with
    | none => tg
    | some (_, uri) =>
      if uri = [] then { tg with activeHyperlink := none }
      else
        { tg with hyperlinks := t.hyperlinks ++ [(t.nextHyperlinkId, uri)],
                  activeHyperlink := some t.nextHyperlinkId,
                  nextHyperlinkId := t.nextHyperlinkId + 1 }
  | _ => tg

/-- Modelled from the spec: ground-state byte handling — C0 controls,
printable ASCII, ESC, and UTF-8 lead bytes opening a buffered multi-byte
collect state; invalid lead bytes are discarded (spec sections 4.1 and
7). -/
def Terminal.groundByte (t : Terminal) (b : Nat) : Terminal :=
  if b = 0x1b then { t with parser := ParserState.escape }
  else if b = 0x0a then t.lineFeed
  else if b = 0x0d then { t with cursorCol := 0 }
  else if b < 0x20 then t
  else if b ≤ 0x7e then t.printCp b
  else if b = 0x7f then t
  else if 0xc2 ≤ b ∧ b ≤ 0xdf then { t with parser := ParserState.utf8Collect (b % 32) 1 }
  else if 0xe0 ≤ b ∧ b ≤ 0xef then { t with parser := ParserState.utf8Collect (b % 16) 2 }
  else if 0xf0 ≤ b ∧ b ≤ 0xf4 then { t with parser := ParserState.utf8Collect (b % 8) 3 }
  else t

/-- Modelled from the spec: escape-state byte handling — open a CSI or
OSC collect state, or discard a simple escape and return to ground (spec
section 4.1). -/
def Terminal.escapeByte (t : Terminal) (b : Nat) : Terminal :=
  if b = 0x5b then { t with parser := ParserState.csiEntry [] 0 true }
  else if b = 0x5d then { t with parser := ParserState.oscString [] }
  else if b = 0x1b then { t with parser := ParserState.escape }
  else { t with parser := ParserState.ground }

/-- Modelled from the spec: CSI collect-state byte handling — digits and
semicolons accumulate parameters (value and count capped so malformed
input cannot grow state unboundedly, spec section 7), private markers
and intermediates mark the sequence invalid so its dispatch is a no-op,
a final byte dispatches, ESC or CAN or SUB cancels. -/
def Terminal.csiByte (t : Terminal) (params : List Nat) (cur : Nat) (valid : Bool) (b : Nat) : Terminal :=
  if 0x30 ≤ b ∧ b ≤ 0x39 then
    { t with parser := ParserState.csiEntry params (min 65535 (cur * 10 + (b - 0x30))) valid }
  else if b = 0x3b then
    { t with parser := ParserState.csiEntry (if params.length < 16 then params ++ [cur] else params) 0 valid }
  else if 0x3a ≤ b ∧ b ≤ 0x3f then { t with parser := ParserState.csiEntry params cur false }
  else if 0x20 ≤ b ∧ b ≤ 0x2f then { t with parser := ParserState.csiEntry params cur false }
  else if 0x40 ≤ b ∧ b ≤ 0x7e then t.csiDispatch (params ++ [cur]) b valid
  else if b = 0x1b then { t with parser := ParserState.escape }
  else if b = 0x18 ∨ b = 0x1a then { t with parser := ParserState.ground }
  else t

/-- Modelled from the spec: one byte of input driving the parser state
machine; partial UTF-8 and escape sequences are buffered in the parser
state and resumed on the next byte, and malformed input resynchronizes
without corrupting later parsing (spec sections 4.1 and 7). -/
def Terminal.feedByte (t : Terminal) (b : Nat) : Terminal :=
  match t.parser with
  | ParserState.ground => t.groundByte b
  | ParserState.escape => t.escapeByte b
  | ParserState.utf8Collect acc n =>
    if 0x80 ≤ b ∧ b ≤ 0xbf then
      let acc2 := acc * 64 + (b % 64)
      if n ≤ 1 then Terminal.printCp { t with parser := ParserState.ground } acc2
      else { t with parser := ParserState.utf8Collect acc2 (n - 1) }
    else Terminal.groundByte { t with parser := ParserState.ground } b
  | ParserState.csiEntry params cur valid => t.csiByte params cur valid b
  | ParserState.oscString acc =>
    if b = 0x07 then t.oscDispatch acc
    else if b = 0x1b then { t with parser := ParserState.oscEsc acc }
    else { t with parser := ParserState.oscString (if acc.length < 2048 then acc ++ [b] else acc) }
  | ParserState.oscEsc acc =>
    if b = 0x5c then t.oscDispatch acc
    else Terminal.escapeByte { t with parser := ParserState.escape } b

/-- Modelled from the spec: feed processes every byte before returning,
one byte at a time through the state machine (spec section 4.1). -/
def Terminal.feed (t : Terminal) (bytes : List Nat) : Terminal :=
  bytes.foldl Terminal.feedByte t

/-- The ghostty_vt_terminal_feed boundary call: a null or invalid handle
is the only non-zero status; feeding on a valid terminal always succeeds
structurally. -/
def ghostty_vt_terminal_feed (h : Option Terminal) (bytes : List Nat) : Int × Option Terminal :=
  match h with
  | none => (1, none)
  | some t => (0, some (t.feed bytes))

/-- ghostty_vt_terminal_new: dimensions arrive as uint16_t, hence are
reduced modulo 65536; zero dimensions fail (spec section 4.2). -/
def ghostty_vt_terminal_new (cols rows : Nat) : Option Terminal :=
  let c := cols % 65536
  let r := rows % 65536
  if c = 0 ∨ r = 0 then none else some (Terminal.init c r)

/-- ghostty_vt_terminal_set_default_colors: store the default RGB pair,
each channel truncated to uint8_t. -/
def ghostty_vt_terminal_set_default_colors (t : Terminal) (fr fg fb br bg bb : Nat) : Terminal :=
  { t with defaultFg := { r := fr % 256, g := fg % 256, b := fb % 256 },
           defaultBg := { r := br % 256, g := bg % 256, b := bb % 256 } }

/-- Modelled from the spec: resize trims or pads each row to the new
width, trims top rows into scrollback or pads blank rows at the bottom
to reach the new height, clamps the cursor to the new bounds, and fails
only on zero or over-maximum dimensions (spec section 4.2). -/
def Terminal.resize (t : Terminal) (cols rows : Nat) : Int × Terminal :=
  if cols = 0 ∨ rows = 0 ∨ 65535 < cols ∨ 65535 < rows then (2, t)
  else
    let g1 := t.grid.map (fun row => row.take cols ++ List.replicate (cols - row.length) Cell.blank)
    let overflow := g1.length - rows
    let sb0 := t.scrollback ++ g1.take overflow
    let sb := sb0.drop (sb0.length - scrollbackLimit)
    let g2 := g1.drop overflow ++ List.replicate (rows - g1.length) (blankRow cols)
    (0, { t with cols := cols, rows := rows, grid := g2, scrollback := sb,
                 cursorCol := min t.cursorCol (cols - 1),
                 cursorRow := min t.cursorRow (rows - 1),
                 viewportOffset := min t.viewportOffset sb.length,
                 dirty := List.range rows })

/-- ghostty_vt_terminal_resize boundary call: uint16_t truncation of the
requested dimensions, then the internal resize. -/
def ghostty_vt_terminal_resize (t : Terminal) (cols rows : Nat) : Int × Terminal :=
  t.resize (cols % 65536) (rows % 65536)

/-- Modelled from the spec: the rows visible through the viewport — the
window of height rows into scrollback plus active screen, positioned
viewportOffset lines above the live bottom (spec sections 3 and 4.3). -/
def Terminal.visibleRows (t : Terminal) : List (List Cell) :=
  let allRows := t.scrollback ++ t.grid
  (allRows.drop (allRows.length - t.rows - t.viewportOffset)).take t.rows

/-- The cell at a viewport-relative position, none when out of bounds. -/
def Terminal.viewportCellAt (t : Terminal) (col row : Nat) : Option Cell :=
  (t.visibleRows.get? row).bind (fun r => r.get? col)

/-- Modelled from the spec: read-time color resolution — explicit RGB is
used as is, the default marker resolves through the terminal's current
default-color attributes (spec section 3, Cell invariant). -/
def resolveColor (d : RGB) : Color → RGB
  | Color.defaultColor => d
  | Color.rgb c => c

/-- Resolve a cell attribute set into the boundary style record, going
through the terminal defaults at read time. -/
def Terminal.resolveStyle (t : Terminal) (a : Attrs) : CellStyleRecord :=
  let f := resolveColor t.defaultFg a.fg
  let b := resolveColor t.defaultBg a.bg
  { fg_r := f.r, fg_g := f.g, fg_b := f.b,
    bg_r := b.r, bg_g := b.g, bg_b := b.b,
    flags := encodeStyleFlags a.inverse a.bold a.italic a.underline a.faint a.invisible a.strikethrough,
    reserved := 0 }

/-- The resolved style record of the cell at a viewport position — the
per-cell unit of ghostty_vt_terminal_dump_viewport_row_cell_styles. -/
def Terminal.cellStyleRecordAt (t : Terminal) (col row : Nat) : Option CellStyleRecord :=
  (t.viewportCellAt col row).map (fun c => t.resolveStyle c.attrs)

/-- ghostty_vt_terminal_dump_viewport_row_cell_styles: the row's resolved
style records serialized as 8 bytes per cell. -/
def ghostty_vt_terminal_dump_viewport_row_cell_styles (t : Terminal) (row : Nat) : List Nat :=
  ((t.visibleRows.get? row).getD []).flatMap (fun c => serializeCellStyle (t.resolveStyle c.attrs))

/-- Look a hyperlink id up in the terminal's hyperlink table. -/
def Terminal.lookupHyperlink (t : Terminal) (i : Nat) : Option (List Nat) :=
  (t.hyperlinks.find? (fun p => p.1 == i)).map (fun p => p.2)

/-- ghostty_vt_terminal_hyperlink_at: resolve the cell at the
viewport-relative position, follow its hyperlink reference, return the
URI bytes; empty (never an error) when out of bounds or no hyperlink. -/
def ghostty_vt_terminal_hyperlink_at (t : Terminal) (col row : Nat) : List Nat :=
  match t.viewportCellAt col row with
  | none => []
  | some c =>
    match c.hyperlink with
    | none => []
    | some i => (t.lookupHyperlink i).getD []

/-- ghostty_vt_terminal_take_dirty_viewport_rows: the dirty entries among
the first rows viewport rows, ascending and duplicate-free, atomically
removed from the dirty set (spec section 4.3). -/
def ghostty_vt_terminal_take_dirty_viewport_rows (t : Terminal) (rows : Nat) : List Nat × Terminal :=
  ((List.range rows).filter (fun r => t.dirty.contains r),
   { t with dirty := t.dirty.filter (fun r => decide (rows ≤ r)) })

/-- ghostty_vt_terminal_scroll_viewport: move the viewport offset by
delta lines (positive toward history), clamped to the retained
scrollback range, and accumulate the applied movement into the coalesced
scroll delta (spec sections 4.3 and 3). -/
def ghostty_vt_terminal_scroll_viewport (t : Terminal) (delta : Int) : Int × Terminal :=
  let target : Int := (t.viewportOffset : Int) + delta
  let newOff : Nat := min t.scrollback.length target.toNat
  (0, { t with viewportOffset := newOff,
               scrollDelta := t.scrollDelta + ((newOff : Int) - (t.viewportOffset : Int)) })

/-- ghostty_vt_terminal_take_viewport_scroll_delta: return the
accumulated net scroll movement and reset the accumulator to zero (spec
section 4.3). -/
def ghostty_vt_terminal_take_viewport_scroll_delta (t : Terminal) : Int × Terminal :=
  (t.scrollDelta, { t with scrollDelta := 0 })

/-- Fold of scroll_viewport calls, used to state coalescing. -/
def scrollMany (t : Terminal) (ds : List Int) : Terminal :=
  ds.foldl (fun s d => (ghostty_vt_terminal_scroll_viewport s d).2) t

/-- Decimal digit bytes of a number, for CSI-style key encodings. -/
def natDigits (n : Nat) : List Nat :=
  (Nat.toDigits 10 n).map Char.toNat

/-- One entry of the key-encoder table: name bytes, the plain sequence,
and the number and final byte of the modified CSI form. -/
structure KeyDef where
  name : List Nat
  plain : List Nat
  csiNum : Nat
  csiFinal : Nat
deriving DecidableEq, Repr

/-- The modified-key CSI form: ESC, open bracket, number, semicolon,
modifier value plus one, final byte. -/
def modifiedCsi (num mods finalByte : Nat) : List Nat :=
  [0x1b, 0x5b] ++ natDigits num ++ [0x3b] ++ natDigits (mods + 1) ++ [finalByte]

/-- Modelled from the spec: the key-encoder table mapping symbolic key
names to the byte sequences a physical terminal emits (spec section
4.5); names are byte strings, sequences follow the common xterm forms. -/
def keyDefs : List KeyDef :=
  [ { name := [0x46, 0x31], plain := [0x1b, 0x4f, 0x50], csiNum := 1, csiFinal := 0x50 },
    { name := [0x46, 0x32], plain := [0x1b, 0x4f, 0x51], csiNum := 1, csiFinal := 0x51 },
    { name := [0x46, 0x33], plain := [0x1b, 0x4f, 0x52], csiNum := 1, csiFinal := 0x52 },
    { name := [0x46, 0x34], plain := [0x1b, 0x4f, 0x53], csiNum := 1, csiFinal := 0x53 },
    { name := [0x46, 0x35], plain := [0x1b, 0x5b, 0x31, 0x35, 0x7e], csiNum := 15, csiFinal := 0x7e },
    { name := [0x45, 0x6e, 0x74, 0x65, 0x72], plain := [0x0d], csiNum := 13, csiFinal := 0x75 },
    { name := [0x41, 0x72, 0x72, 0x6f, 0x77, 0x55, 0x70], plain := [0x1b, 0x5b, 0x41], csiNum := 1, csiFinal := 0x41 },
    { name := [0x41, 0x72, 0x72, 0x6f, 0x77, 0x44, 0x6f, 0x77, 0x6e], plain := [0x1b, 0x5b, 0x42], csiNum := 1, csiFinal := 0x42 } ]

/-- Shift modifier bit of the modifier bitset (spec section 4.5:
Shift, Alt, Ctrl, Super independently combinable). -/
def modShift : Nat := 1

/-- ghostty_vt_encode_key_named: pure lookup of the key name; unknown
names yield an empty result, never an error; the supported modifier bits
select the modified CSI form (spec section 4.5). -/
def ghostty_vt_encode_key_named (name : List Nat) (mods : Nat) : List Nat :=
  match keyDefs.find? (fun k => k.name == name) with
  | none => []
  | some k => if mods % 16 = 0 then k.plain else modifiedCsi k.csiNum (mods % 16) k.csiFinal

/-- Small concrete terminal used by witnesses. -/
def termA : Terminal := Terminal.init 4 2

/-- Concrete terminal with three retained scrollback rows, used to
witness viewport scrolling. -/
def termScroll : Terminal :=
  { Terminal.init 4 2 with scrollback := List.replicate 3 (blankRow 4) }

/-- A complete OSC 8 hyperlink sequence carrying the URI bytes of
"http", terminated by BEL. -/
def oscLinkBytes : List Nat :=
  [0x1b, 0x5d, 0x38, 0x3b, 0x3b, 0x68, 0x74, 0x74, 0x70, 0x07]

/-- Concrete terminal that has processed an OSC 8 hyperlink opening. -/
def termLinked : Terminal := (Terminal.init 8 2).feed oscLinkBytes

/-- The byte string of a CSI sequence: ESC, open bracket, parameter
bytes, final byte. -/
def csiSeqBytes (ps : List Nat) (fin : Nat) : List Nat :=
  [0x1b, 0x5b] ++ ps ++ [fin]

/-- Concrete terminal whose defaults were set to RGB 10 20 30 before a
cell with default background was printed. -/
def termC5 : Terminal :=
  (ghostty_vt_terminal_set_default_colors termA 255 255 255 10 20 30).feed [0x41]

/-- The cell printed by termC5: codepoint 0x41 under the initial
attribute set, which carries the default-color markers. -/
def cellA : Cell := { codepoints := [0x41], attrs := Attrs.init, hyperlink := none }

-- THEOREMS

/-- Claim C1: for every byte stream and every split position, feeding the
two parts in succession leaves the terminal in the same state as feeding
the concatenation once, including splits inside multi-byte UTF-8 or
escape sequences, at the Terminal level and through the boundary call. -/
theorem feed_split_invariance (t : Terminal) (a b : List Nat) :
    (t.feed a).feed b = t.feed (a ++ b) ∧
    (ghostty_vt_terminal_feed (ghostty_vt_terminal_feed (some t) a).2 b).2 =
      (ghostty_vt_terminal_feed (some t) (a ++ b)).2 := by
  constructor
  · simp [Terminal.feed, List.foldl_append]
  · simp [ghostty_vt_terminal_feed, Terminal.feed, List.foldl_append]

/-- Claim C9: the boundary style record serializes to exactly 8 bytes in
the header's declaration order — fg RGB, bg RGB, flag byte, reserved
byte — and the flag byte assigns bit 0 inverse, bit 1 bold, bit 2
italic, bit 3 underline, bit 4 faint, bit 5 invisible, bit 6
strikethrough, with bit 7 clear. -/
theorem style_record_layout :
    (∀ s : CellStyleRecord,
      (serializeCellStyle s).length = 8 ∧
      serializeCellStyle s =
        [s.fg_r % 256, s.fg_g % 256, s.fg_b % 256,
         s.bg_r % 256, s.bg_g % 256, s.bg_b % 256,
         s.flags % 256, s.reserved % 256]) ∧
    (∀ (i bo it un fa inv st : Bool),
      Nat.testBit (encodeStyleFlags i bo it un fa inv st) 0 = i ∧
      Nat.testBit (encodeStyleFlags i bo it un fa inv st) 1 = bo ∧
      Nat.testBit (encodeStyleFlags i bo it un fa inv st) 2 = it ∧
      Nat.testBit (encodeStyleFlags i bo it un fa inv st) 3 = un ∧
      Nat.testBit (encodeStyleFlags i bo it un fa inv st) 4 = fa ∧
      Nat.testBit (encodeStyleFlags i bo it un fa inv st) 5 = inv ∧
      Nat.testBit (encodeStyleFlags i bo it un fa inv st) 6 = st ∧
      encodeStyleFlags i bo it un fa inv st < 128) := by
  constructor
  · intro s; exact ⟨rfl, rfl⟩
  · decide

/-- Claim C3: take_dirty_viewport_rows returns exactly the dirty entries
among the first rows viewport rows, in ascending order without
duplicates, and clears them, so an immediate second call returns the
empty set. -/
theorem take_dirty_viewport_rows_spec (t : Terminal) (rows : Nat) :
    (∀ r, r ∈ (ghostty_vt_terminal_take_dirty_viewport_rows t rows).1 ↔
      r ∈ t.dirty ∧ r < rows) ∧
    (ghostty_vt_terminal_take_dirty_viewport_rows t rows).1.Sorted (· < ·) ∧
    (ghostty_vt_terminal_take_dirty_viewport_rows t rows).1.Nodup ∧
    (ghostty_vt_terminal_take_dirty_viewport_rows
      (ghostty_vt_terminal_take_dirty_viewport_rows t rows).2 rows).1 = [] := by
  refine ⟨?_, ?_, ?_, ?_⟩
  · intro r
    simp [ghostty_vt_terminal_take_dirty_viewport_rows, List.mem_filter,
      List.mem_range, and_comm]
  · exact (List.pairwise_lt_range rows).filter _
  · exact (List.nodup_range rows).filter _
  · simp only [ghostty_vt_terminal_take_dirty_viewport_rows]
    rw [List.filter_eq_nil_iff]
    intro a ha
    simp only [List.mem_range] at ha
    simp [List.mem_filter]
    omega

/-- Accumulated scroll delta after a fold of scroll calls equals the
starting accumulator plus the net viewport-offset movement. -/
theorem scrollMany_delta (ds : List Int) : ∀ t : Terminal,
    ((scrollMany t ds).scrollDelta : Int) =
      t.scrollDelta + ((scrollMany t ds).viewportOffset : Int) - (t.viewportOffset : Int) := by
  induction ds with
  | nil => intro t; simp [scrollMany]
  | cons d ds ih =>
    intro t
    have step : scrollMany t (d :: ds) =
        scrollMany ((ghostty_vt_terminal_scroll_viewport t d).2) ds := rfl
    rw [step]
    have h2 := ih ((ghostty_vt_terminal_scroll_viewport t d).2)
    simp [ghostty_vt_terminal_scroll_viewport] at h2 ⊢
    omega

/-- Claim C4: take_viewport_scroll_delta returns the single net sum of
all scroll movement accumulated since the previous take (the net change
of the viewport offset), resets the accumulator, and an immediately
following call returns 0. -/
theorem take_scroll_delta_coalesced (t : Terminal) (ds : List Int)
    (h : t.scrollDelta = 0) :
    (ghostty_vt_terminal_take_viewport_scroll_delta (scrollMany t ds)).1 =
      ((scrollMany t ds).viewportOffset : Int) - (t.viewportOffset : Int) ∧
    (ghostty_vt_terminal_take_viewport_scroll_delta
      (ghostty_vt_terminal_take_viewport_scroll_delta (scrollMany t ds)).2).1 = 0 := by
  constructor
  · have hd := scrollMany_delta ds t
    simp [ghostty_vt_terminal_take_viewport_scroll_delta, hd, h]
  · simp [ghostty_vt_terminal_take_viewport_scroll_delta]

/-- Witness for claim C4: scrolls of +1, +2 and -1 on a terminal with
three retained scrollback rows coalesce into the single value +2, after
which the next take returns 0. -/
theorem take_scroll_delta_coalesced_witness :
    ((ghostty_vt_terminal_take_viewport_scroll_delta (scrollMany termScroll [1, 2, -1])).1 =
      ((scrollMany termScroll [1, 2, -1]).viewportOffset : Int) - (termScroll.viewportOffset : Int) ∧
     (ghostty_vt_terminal_take_viewport_scroll_delta
       (ghostty_vt_terminal_take_viewport_scroll_delta (scrollMany termScroll [1, 2, -1])).2).1 = 0) ∧
    (ghostty_vt_terminal_take_viewport_scroll_delta (scrollMany termScroll [1, 2, -1])).1 = 2 := by
  refine ⟨take_scroll_delta_coalesced termScroll [1, 2, -1] rfl, ?_⟩
  decide

/-- Claim C10: creation and resize accept dimensions as uint16_t, so any
terminal obtained from creation has cols and rows at most 65535, and
resize keeps any in-bounds terminal within the same bound. -/
theorem dims_uint16_bounded (c r : Nat) (t : Terminal)
    (hnew : ghostty_vt_terminal_new c r = some t)
    (t2 : Terminal) (c2 r2 : Nat)
    (h2c : t2.cols ≤ 65535) (h2r : t2.rows ≤ 65535) :
    t.cols ≤ 65535 ∧ t.rows ≤ 65535 ∧
    (ghostty_vt_terminal_resize t2 c2 r2).2.cols ≤ 65535 ∧
    (ghostty_vt_terminal_resize t2 c2 r2).2.rows ≤ 65535 := by
  have hb : ∀ n : Nat, n % 65536 ≤ 65535 :=
    fun n => Nat.lt_succ_iff.mp (Nat.mod_lt _ (by norm_num))
  have hnew2 : t.cols ≤ 65535 ∧ t.rows ≤ 65535 := by
    simp only [ghostty_vt_terminal_new] at hnew
    split at hnew
    · exact absurd hnew (by simp)
    · cases hnew
      exact ⟨hb c, hb r⟩
  have hres : (ghostty_vt_terminal_resize t2 c2 r2).2.cols ≤ 65535 ∧
      (ghostty_vt_terminal_resize t2 c2 r2).2.rows ≤ 65535 := by
    simp only [ghostty_vt_terminal_resize, Terminal.resize]
    split
    · exact ⟨h2c, h2r⟩
    · exact ⟨hb c2, hb r2⟩
  exact ⟨hnew2.1, hnew2.2, hres.1, hres.2⟩

/-- Witness for claim C10: an 80 by 24 creation succeeds within bounds
and a resize request of 100 by 50 stays within bounds. -/
theorem dims_uint16_bounded_witness :
    Terminal.init 80 24 = Terminal.init 80 24 ∧
    ((Terminal.init 80 24).cols ≤ 65535 ∧ (Terminal.init 80 24).rows ≤ 65535 ∧
     (ghostty_vt_terminal_resize termA 100 50).2.cols ≤ 65535 ∧
     (ghostty_vt_terminal_resize termA 100 50).2.rows ≤ 65535) :=
  ⟨rfl, dims_uint16_bounded 80 24 (Terminal.init 80 24) rfl termA 100 50
    (by decide) (by decide)⟩

/-- Claim C5: a cell carrying the default-background marker resolves its
rendered background through the terminal's default-color attributes at
read time, so a later set_default_colors call retroactively changes what
the cell's style reads as. -/
theorem default_color_late_binding (t : Terminal) (c : Cell) (col row : Nat)
    (fr fg fb br bg bb : Nat)
    (h1 : t.viewportCellAt col row = some c)
    (h2 : c.attrs.bg = Color.defaultColor) :
    (Terminal.cellStyleRecordAt (ghostty_vt_terminal_set_default_colors t fr fg fb br bg bb) col row).map
      (fun s => (s.bg_r, s.bg_g, s.bg_b)) = some (br % 256, bg % 256, bb % 256) := by
  have h1' : (ghostty_vt_terminal_set_default_colors t fr fg fb br bg bb).viewportCellAt col row = some c := h1
  simp only [Terminal.cellStyleRecordAt, h1', Option.map_some']
  simp [Terminal.resolveStyle, h2, resolveColor, ghostty_vt_terminal_set_default_colors]

/-- Witness for claim C5: after defaults RGB 10 20 30, printing a
default-background cell, then changing defaults to RGB 1 2 3, the cell's
style reads background RGB 1 2 3. -/
theorem default_color_late_binding_witness :
    (Terminal.cellStyleRecordAt (ghostty_vt_terminal_set_default_colors termC5 255 255 255 1 2 3) 0 0).map
      (fun s => (s.bg_r, s.bg_g, s.bg_b)) = some (1 % 256, 2 % 256, 3 % 256) :=
  default_color_late_binding termC5 cellA 0 0 255 255 255 1 2 3 (by decide) rfl

/-- Resizing a well-formed terminal to its current dimensions preserves
the grid, the cursor and the dimensions. -/
theorem resize_self_fields (t : Terminal)
    (hg : t.grid.length = t.rows)
    (hw : ∀ row ∈ t.grid, row.length = t.cols)
    (hc : t.cursorCol < t.cols) (hr : t.cursorRow < t.rows)
    (hcm : t.cols ≤ 65535) (hrm : t.rows ≤ 65535) :
    (t.resize t.cols t.rows).2.grid = t.grid ∧
    (t.resize t.cols t.rows).2.cursorCol = t.cursorCol ∧
    (t.resize t.cols t.rows).2.cursorRow = t.cursorRow ∧
    (t.resize t.cols t.rows).2.cols = t.cols ∧
    (t.resize t.cols t.rows).2.rows = t.rows := by
  have hmap : ∀ g : List (List Cell), (∀ row ∈ g, row.length = t.cols) →
      g.map (fun row => row.take t.cols ++ List.replicate (t.cols - row.length) Cell.blank) = g := by
    intro g
    induction g with
    | nil => intro _; rfl
    | cons a as ih =>
      intro hall
      have ha : a.length = t.cols := hall a (by simp)
      simp only [List.map_cons]
      rw [ih (fun r hr2 => hall r (by simp [hr2]))]
      rw [← ha]
      simp
  simp only [Terminal.resize]
  rw [if_neg (by omega)]
  have hm := hmap t.grid hw
  dsimp only
  rw [hm, hg]
  refine ⟨?_, ?_, ?_, rfl, rfl⟩
  · simp
  · exact Nat.min_eq_left (by omega)
  · exact Nat.min_eq_left (by omega)

/-- Claim C6: resizing twice with the terminal's current dimensions is
idempotent — grid content and cursor position are unchanged. -/
theorem resize_same_dims_idempotent (t : Terminal)
    (hg : t.grid.length = t.rows)
    (hw : ∀ row ∈ t.grid, row.length = t.cols)
    (hc : t.cursorCol < t.cols) (hr : t.cursorRow < t.rows)
    (hcm : t.cols ≤ 65535) (hrm : t.rows ≤ 65535) :
    (ghostty_vt_terminal_resize
      (ghostty_vt_terminal_resize t t.cols t.rows).2
      (ghostty_vt_terminal_resize t t.cols t.rows).2.cols
      (ghostty_vt_terminal_resize t t.cols t.rows).2.rows).2.grid = t.grid ∧
    (ghostty_vt_terminal_resize
      (ghostty_vt_terminal_resize t t.cols t.rows).2
      (ghostty_vt_terminal_resize t t.cols t.rows).2.cols
      (ghostty_vt_terminal_resize t t.cols t.rows).2.rows).2.cursorCol = t.cursorCol ∧
    (ghostty_vt_terminal_resize
      (ghostty_vt_terminal_resize t t.cols t.rows).2
      (ghostty_vt_terminal_resize t t.cols t.rows).2.cols
      (ghostty_vt_terminal_resize t t.cols t.rows).2.rows).2.cursorRow = t.cursorRow := by
  have hmodc : t.cols % 65536 = t.cols := Nat.mod_eq_of_lt (by omega)
  have hmodr : t.rows % 65536 = t.rows := Nat.mod_eq_of_lt (by omega)
  have hapi : ∀ s : Terminal, ghostty_vt_terminal_resize s t.cols t.rows = s.resize t.cols t.rows := by
    intro s
    simp [ghostty_vt_terminal_resize, hmodc, hmodr]
  obtain ⟨e1g, e1c, e1r, e1cols, e1rows⟩ := resize_self_fields t hg hw hc hr hcm hrm
  rw [hapi t, e1cols, e1rows, hapi ((t.resize t.cols t.rows).2)]
  set t1 := (t.resize t.cols t.rows).2 with ht1
  have hg1 : t1.grid.length = t1.rows := by rw [e1g, e1rows, hg]
  have hw1 : ∀ row ∈ t1.grid, row.length = t1.cols := by
    rw [e1g, e1cols]; exact hw
  have hc1 : t1.cursorCol < t1.cols := by rw [e1c, e1cols]; exact hc
  have hr1 : t1.cursorRow < t1.rows := by rw [e1r, e1rows]; exact hr
  have hcm1 : t1.cols ≤ 65535 := by rw [e1cols]; exact hcm
  have hrm1 : t1.rows ≤ 65535 := by rw [e1rows]; exact hrm
  obtain ⟨e2g, e2c, e2r, _, _⟩ := resize_self_fields t1 hg1 hw1 hc1 hr1 hcm1 hrm1
  have hcols1 : t1.resize t.cols t.rows = t1.resize t1.cols t1.rows := by
    rw [e1cols, e1rows]
  rw [hcols1]
  exact ⟨by rw [e2g, e1g], by rw [e2c, e1c], by rw [e2r, e1r]⟩

/-- Witness for claim C6: a 4 by 2 terminal resized twice to 4 by 2
keeps its grid and cursor. -/
theorem resize_same_dims_idempotent_witness :
    (ghostty_vt_terminal_resize
      (ghostty_vt_terminal_resize termA termA.cols termA.rows).2
      (ghostty_vt_terminal_resize termA termA.cols termA.rows).2.cols
      (ghostty_vt_terminal_resize termA termA.cols termA.rows).2.rows).2.grid = termA.grid ∧
    (ghostty_vt_terminal_resize
      (ghostty_vt_terminal_resize termA termA.cols termA.rows).2
      (ghostty_vt_terminal_resize termA termA.cols termA.rows).2.cols
      (ghostty_vt_terminal_resize termA termA.cols termA.rows).2.rows).2.cursorCol = termA.cursorCol ∧
    (ghostty_vt_terminal_resize
      (ghostty_vt_terminal_resize termA termA.cols termA.rows).2
      (ghostty_vt_terminal_resize termA termA.cols termA.rows).2.cols
      (ghostty_vt_terminal_resize termA termA.cols termA.rows).2.rows).2.cursorRow = termA.cursorRow :=
  resize_same_dims_idempotent termA (by decide) (by decide) (by decide) (by decide)
    (by decide) (by decide)

/-- Feeding any run of CSI parameter, separator, private-marker or
intermediate bytes while collecting a CSI sequence only changes the
parser state, leaving every other terminal field untouched. -/
theorem csi_param_accumulate (bs : List Nat) : ∀ (t : Terminal) (ps : List Nat) (cur : Nat) (vd : Bool),
    (∀ b ∈ bs, 0x20 ≤ b ∧ b ≤ 0x3f) →
    ∃ ps2 cur2 vd2,
      List.foldl Terminal.feedByte { t with parser := ParserState.csiEntry ps cur vd } bs =
        { t with parser := ParserState.csiEntry ps2 cur2 vd2 } := by
  induction bs with
  | nil => intro t ps cur vd _; exact ⟨ps, cur, vd, rfl⟩
  | cons b bs ih =>
    intro t ps cur vd hall
    have hb := hall b (by simp)
    have hstep : ∃ ps1 cur1 vd1,
        Terminal.feedByte { t with parser := ParserState.csiEntry ps cur vd } b =
          { t with parser := ParserState.csiEntry ps1 cur1 vd1 } := by
      have hred : Terminal.feedByte { t with parser := ParserState.csiEntry ps cur vd } b =
          Terminal.csiByte { t with parser := ParserState.csiEntry ps cur vd } ps cur vd b := rfl
      rw [hred]
      simp only [Terminal.csiByte]
      by_cases h1 : 0x30 ≤ b ∧ b ≤ 0x39
      · exact ⟨_, _, _, by rw [if_pos h1]⟩
      · by_cases h2 : b = 0x3b
        · exact ⟨_, _, _, by rw [if_neg h1, if_pos h2]⟩
        · by_cases h3 : 0x3a ≤ b ∧ b ≤ 0x3f
          · exact ⟨_, _, _, by rw [if_neg h1, if_neg h2, if_pos h3]⟩
          · have h4 : 0x20 ≤ b ∧ b ≤ 0x2f := by omega
            exact ⟨_, _, _, by rw [if_neg h1, if_neg h2, if_neg h3, if_pos h4]⟩
    obtain ⟨ps1, cur1, vd1, hstep⟩ := hstep
    rw [List.foldl_cons, hstep]
    exact ih t ps1 cur1 vd1 (fun x hx => hall x (by simp [hx]))

/-- Dispatch of a CSI sequence whose final byte is not a recognized
action only returns the parser to ground. -/
theorem csiDispatch_unknown (t : Terminal) (ps : List Nat) (b : Nat) (vd : Bool)
    (hH : b ≠ 0x48) (hm : b ≠ 0x6d) :
    t.csiDispatch ps b vd = { t with parser := ParserState.ground } := by
  cases vd <;> simp [Terminal.csiDispatch, hH, hm]

/-- Claim C2: feed reports a non-zero status exactly for a structural
error (an invalid handle); a malformed or unrecognized CSI sequence in
the byte stream never surfaces as an error, never aborts processing, and
leaves the processing of the bytes after its terminator identical to a
stream without it. -/
theorem feed_errors_structural_only (hh : Option Terminal) (bytes : List Nat)
    (t : Terminal) (ps : List Nat) (fin : Nat) (rest : List Nat)
    (hg : t.parser = ParserState.ground)
    (hps : ∀ b ∈ ps, 0x20 ≤ b ∧ b ≤ 0x3f)
    (hfin : 0x40 ≤ fin ∧ fin ≤ 0x7e) (hH : fin ≠ 0x48) (hm : fin ≠ 0x6d) :
    ((ghostty_vt_terminal_feed hh bytes).1 ≠ 0 ↔ hh = none) ∧
    t.feed (csiSeqBytes ps fin ++ rest) = t.feed rest := by
  constructor
  · cases hh <;> simp [ghostty_vt_terminal_feed]
  · have s1 : Terminal.feedByte t 0x1b = { t with parser := ParserState.escape } := by
      simp [Terminal.feedByte, hg, Terminal.groundByte]
    have s2 : Terminal.feedByte { t with parser := ParserState.escape } 0x5b =
        { t with parser := ParserState.csiEntry [] 0 true } := rfl
    have s12 : List.foldl Terminal.feedByte t [0x1b, 0x5b] =
        { t with parser := ParserState.csiEntry [] 0 true } := by
      simp [List.foldl_cons, List.foldl_nil, s1, s2]
    obtain ⟨ps2, cur2, vd2, s3⟩ := csi_param_accumulate ps t [] 0 true hps
    have s4 : Terminal.feedByte { t with parser := ParserState.csiEntry ps2 cur2 vd2 } fin =
        { t with parser := ParserState.ground } := by
      have hred : Terminal.feedByte { t with parser := ParserState.csiEntry ps2 cur2 vd2 } fin =
          Terminal.csiByte { t with parser := ParserState.csiEntry ps2 cur2 vd2 } ps2 cur2 vd2 fin := rfl
      rw [hred]
      simp only [Terminal.csiByte]
      rw [if_neg (by omega), if_neg (by omega), if_neg (by omega), if_neg (by omega),
        if_pos hfin]
      exact csiDispatch_unknown _ _ _ _ hH hm
    have s5 : ({ t with parser := ParserState.ground } : Terminal) = t := by
      rw [← hg]
    have hseq : List.foldl Terminal.feedByte t (csiSeqBytes ps fin) = t := by
      show List.foldl Terminal.feedByte t ([0x1b, 0x5b] ++ ps ++ [fin]) = t
      rw [List.foldl_append, List.foldl_append, s12, s3, List.foldl_cons, List.foldl_nil, s4, s5]
    show List.foldl Terminal.feedByte t (csiSeqBytes ps fin ++ rest) =
      List.foldl Terminal.feedByte t rest
    rw [List.foldl_append, hseq]

/-- Witness for claim C2: a valid handle feeds with status 0, an invalid
handle is the only non-zero status, and the unrecognized sequence CSI 9
9 q vanishes before a following printable byte. -/
theorem feed_errors_structural_only_witness :
    (((ghostty_vt_terminal_feed (some termA) [0x41]).1 ≠ 0 ↔ (some termA : Option Terminal) = none) ∧
     termA.feed (csiSeqBytes [0x39, 0x39] 0x71 ++ [0x41]) = termA.feed [0x41]) :=
  feed_errors_structural_only (some termA) [0x41] termA [0x39, 0x39] 0x71 [0x41]
    rfl (by decide) (by decide) (by decide) (by decide)

/-- updateNth preserves length. -/
theorem updateNth_length {α : Type} (l : List α) (n : Nat) (f : α → α) :
    (updateNth l n f).length = l.length := by
  induction l generalizing n with
  | nil => rfl
  | cons a l ih => cases n with
    | zero => rfl
    | succ n => simp [updateNth, ih]

/-- Reading the updated index of updateNth applies the function. -/
theorem updateNth_get_self {α : Type} (l : List α) (n : Nat) (f : α → α) :
    (updateNth l n f).get? n = (l.get? n).map f := by
  induction l generalizing n with
  | nil => cases n <;> rfl
  | cons a l ih => cases n with
    | zero => rfl
    | succ n => simpa [updateNth] using ih n

/-- Claim C7: hyperlink_at returns an empty byte result, not an error,
when the addressed cell carries no hyperlink or is out of bounds; and a
cell written while an OSC 8 hyperlink is active resolves to exactly the
URI bytes recorded for that hyperlink in the table. -/
theorem hyperlink_at_spec (t0 : Terminal) (col0 row0 : Nat)
    (hnone : (t0.viewportCellAt col0 row0).bind Cell.hyperlink = none)
    (t : Terminal) (idn : Nat) (uri : List Nat) (b : Nat)
    (hg : t.parser = ParserState.ground)
    (hactive : t.activeHyperlink = some idn)
    (hlook : t.lookupHyperlink idn = some uri)
    (hoff : t.viewportOffset = 0)
    (hgl : t.grid.length = t.rows)
    (hwid : ∀ row ∈ t.grid, row.length = t.cols)
    (hcc : t.cursorCol + 1 < t.cols)
    (hcr : t.cursorRow < t.rows)
    (hb : 0x20 ≤ b ∧ b ≤ 0x7e) :
    ghostty_vt_terminal_hyperlink_at t0 col0 row0 = [] ∧
    ghostty_vt_terminal_hyperlink_at (t.feed [b]) t.cursorCol t.cursorRow = uri := by
  constructor
  · cases hvc : t0.viewportCellAt col0 row0 with
    | none => simp [ghostty_vt_terminal_hyperlink_at, hvc]
    | some c =>
      rw [hvc] at hnone
      simp only [Option.bind_eq_bind, Option.some_bind] at hnone
      simp [ghostty_vt_terminal_hyperlink_at, hvc, hnone]
  · have hfeed : t.feed [b] = t.printCp b := by
      show Terminal.feedByte t b = t.printCp b
      simp only [Terminal.feedByte, hg]
      simp only [Terminal.groundByte]
      rw [if_neg (by omega), if_neg (by omega), if_neg (by omega), if_neg (by omega),
        if_pos (by omega)]
    have hprint : t.printCp b =
        { t with
          grid := updateNth t.grid t.cursorRow
            (fun row => updateNth row t.cursorCol
              (fun _ => { codepoints := [b], attrs := t.attrs, hyperlink := t.activeHyperlink })),
          dirty := t.cursorRow :: t.dirty,
          cursorCol := t.cursorCol + 1 } := by
      dsimp only [Terminal.printCp, Terminal.putCell, Terminal.markDirty]
      rw [if_pos hcc]
    rw [hfeed, hprint]
    have hlen : (updateNth t.grid t.cursorRow
        (fun row => updateNth row t.cursorCol
          (fun _ => { codepoints := [b], attrs := t.attrs, hyperlink := t.activeHyperlink }))).length
        = t.rows := by
      rw [updateNth_length, hgl]
    have hgrow : t.grid.get? t.cursorRow =
        some (t.grid.get ⟨t.cursorRow, by omega⟩) := List.get?_eq_get (by omega)
    have hrmem : t.grid.get ⟨t.cursorRow, by omega⟩ ∈ t.grid := List.get_mem t.grid t.cursorRow (by omega)
    have hrlen : (t.grid.get ⟨t.cursorRow, by omega⟩).length = t.cols := hwid _ hrmem
    have hcrow : (t.grid.get ⟨t.cursorRow, by omega⟩).get? t.cursorCol =
        some ((t.grid.get ⟨t.cursorRow, by omega⟩).get ⟨t.cursorCol, by omega⟩) :=
      List.get?_eq_get (by omega)
    simp only [ghostty_vt_terminal_hyperlink_at, Terminal.viewportCellAt, Terminal.visibleRows]
    rw [hoff, Nat.sub_zero, List.length_append, hlen]
    have harith : t.scrollback.length + t.rows - t.rows = t.scrollback.length := by omega
    rw [harith, List.drop_left, ← hlen, List.take_length]
    rw [updateNth_get_self, hgrow, Option.map_some', Option.some_bind, updateNth_get_self,
      hcrow, Option.map_some']
    dsimp only
    rw [hactive]
    dsimp only [Terminal.lookupHyperlink]
    have hlook2 : (t.hyperlinks.find? (fun p => p.1 == idn)).map (fun p => p.2) = some uri := hlook
    rw [hlook2]
    rfl

/-- Witness for claim C7: a never-linked cell reads as empty, and the
cell printed right after an OSC 8 opening carrying the URI bytes of
"http" reads back exactly those bytes. -/
theorem hyperlink_at_spec_witness :
    ghostty_vt_terminal_hyperlink_at termA 0 0 = [] ∧
    ghostty_vt_terminal_hyperlink_at (termLinked.feed [0x41])
      termLinked.cursorCol termLinked.cursorRow = [0x68, 0x74, 0x74, 0x70] :=
  hyperlink_at_spec termA 0 0 (by decide) termLinked 0 [0x68, 0x74, 0x74, 0x70] 0x41
    (by decide) (by decide) (by decide) (by decide) (by decide) (by decide)
    (by decide) (by decide) (by decide)

/-- Claim C8: encoding the F1 key with no modifier and with Shift gives
two different non-empty byte sequences, and every key name outside the
encoder table yields the empty result, never an error. -/
theorem encode_key_named_spec (name : List Nat) (mods : Nat)
    (h : keyDefs.find? (fun k => k.name == name) = none) :
    ghostty_vt_encode_key_named [0x46, 0x31] 0 ≠ [] ∧
    ghostty_vt_encode_key_named [0x46, 0x31] modShift ≠ [] ∧
    ghostty_vt_encode_key_named [0x46, 0x31] 0 ≠ ghostty_vt_encode_key_named [0x46, 0x31] modShift ∧
    ghostty_vt_encode_key_named name mods = [] := by
  refine ⟨by decide, by decide, by decide, ?_⟩
  simp [ghostty_vt_encode_key_named, h]

/-- Witness for claim C8: the unknown name "NotAKey" (as bytes) returns
the empty sequence while the F1 encodings differ and are non-empty. -/
theorem encode_key_named_spec_witness :
    ghostty_vt_encode_key_named [0x46, 0x31] 0 ≠ [] ∧
    ghostty_vt_encode_key_named [0x46, 0x31] modShift ≠ [] ∧
    ghostty_vt_encode_key_named [0x46, 0x31] 0 ≠ ghostty_vt_encode_key_named [0x46, 0x31] modShift ∧
    ghostty_vt_encode_key_named [0x4e, 0x6f, 0x74, 0x41, 0x4b, 0x65, 0x79] 0 = [] :=
  encode_key_named_spec [0x4e, 0x6f, 0x74, 0x41, 0x4b, 0x65, 0x79] 0 (by decide)
